import Mathlib

/-!
Verification of the ADI Uzu LLM plugin core (`src/lib.rs`): a registry of
loaded models keyed by path string, with load/unload/list/generate/info
operations and two dispatch front-ends (a CLI command interface and a
structured inference interface).

The external inference engine (`lib_client_uzu::Client`) and the JSON
serializer (`serde_json`) are external collaborators: they are modelled as
an abstract `Engine` record of functions, parametric in the opaque handle
type `Client` and the floating-point temperature type `Temp`.  The registry
(`HashMap<String, Client>` inside `Mutex<Option<...>>`) is modelled as
`Option` of an association list; lock acquisition is modelled as always
succeeding (lock poisoning is a panic-propagation mechanism outside the
embedding).
-/

/-- Response of the engine's generate call: the fields the plugin reads
(`response.text`, `response.tokens_generated`, `response.stopped`,
`response.stop_reason`). -/
structure GenerateResponse where
  text : String
  tokens_generated : Nat
  stopped : Bool
  stop_reason : String
  deriving Repr, DecidableEq

/-- Metadata of the engine's model_info call: the fields the plugin reads
(`info.name`, `info.size`, `info.loaded`). -/
structure ModelInfo where
  name : String
  size : Nat
  loaded : Bool
  deriving Repr, DecidableEq

/-- `lib_client_uzu::GenerateRequest`: prompt plus optional max_tokens and
optional temperature (set by builder methods). -/
structure GenerateRequest (Temp : Type) where
  prompt : String
  max_tokens : Option Nat
  temperature : Option Temp
  deriving Repr, DecidableEq

/-- `GenerateRequest::new(prompt)`. -/
def GenerateRequest.mkNew {Temp : Type} (prompt : String) : GenerateRequest Temp :=
  { prompt := prompt, max_tokens := none, temperature := none }

/-- `request.max_tokens(max)` builder. -/
def GenerateRequest.set_max_tokens {Temp : Type} (r : GenerateRequest Temp) (mx : Nat) :
    GenerateRequest Temp :=
  { r with max_tokens := some mx }

/-- `request.temperature(temp)` builder. -/
def GenerateRequest.set_temperature {Temp : Type} (r : GenerateRequest Temp) (t : Temp) :
    GenerateRequest Temp :=
  { r with temperature := some t }

/-- The deserialized payload of the inference service's generate method:
`{model_path, prompt, max_tokens?, temperature?}` (struct `GenerateArgs`
in `inference_invoke`). -/
structure GenerateArgs (Temp : Type) where
  model_path : String
  prompt : String
  max_tokens : Option Nat
  temperature : Option Temp
  deriving Repr

/-- External collaborators of the plugin core: `Client::new`,
`Client::generate`, `Client::model_info` from `lib_client_uzu`, and the
serde_json serialization/deserialization at the boundary.  Error cases
carry the reason string the plugin interpolates into its messages. -/
structure Engine (Client Temp : Type) where
  mkNew : String → Except String Client
  generate : Client → GenerateRequest Temp → Except String GenerateResponse
  model_info : Client → ModelInfo
  renderResponse : GenerateResponse → String
  renderList : List String → String
  renderInfo : ModelInfo → String
  parseGenerateArgs : String → Except String (GenerateArgs Temp)
  commandsJson : String

/-- The registry table: `HashMap<String, Client>` as an association list. -/
abbrev Registry (Client : Type) := List (String × Client)

/-- `static MODELS: Mutex<Option<HashMap<String, Client>>>` content:
`none` before `plugin_init` / after `plugin_cleanup`. -/
abbrev Models (Client : Type) := Option (Registry Client)

/-- `HashMap::contains_key`. -/
def containsKey {Client : Type} (m : Registry Client) (k : String) : Bool :=
  m.any (fun p => p.1 == k)

/-- `HashMap::get` / `get_mut` (lookup only; the handle is opaque). -/
def lookupKey {Client : Type} : Registry Client → String → Option Client
  | [], _ => none
  | (k, v) :: rest, key => if k == key then some v else lookupKey rest key

/-- `HashMap::remove`: returns the removed value and the remaining map,
or `none` when the key is absent. -/
def removeKey {Client : Type} : Registry Client → String → Option (Client × Registry Client)
  | [], _ => none
  | (k, v) :: rest, key =>
    if k == key then some (v, rest)
    else
      match removeKey rest key with
      | none => none
      | some (v2, m2) => some (v2, (k, v) :: m2)

/-- Keys of the map have no duplicates: the `HashMap` representation
invariant (at most one entry per key). -/
def NodupKeys {Client : Type} (m : Registry Client) : Prop :=
  (m.map Prod.fst).Nodup

/-- Number of entries stored under key `k`. -/
def countKey {Client : Type} (m : Registry Client) (k : String) : Nat :=
  (m.filter (fun p => p.1 == k)).length

/-- `ServiceError` constructors used by the plugin
(`ServiceError::invocation_error`, `ServiceError::method_not_found`). -/
inductive ServiceError where
  | invocation_error (message : String)
  | method_not_found (method : String)
  deriving Repr, DecidableEq

/-- `load_model(path)`: no-op success when the path is already a key;
otherwise constructs a client via `Client::new` and inserts it, mapping a
construction failure to `"Failed to load model: {e}"` with the registry
unchanged. -/
def load_model {Client Temp : Type} (eng : Engine Client Temp) (path : String)
    (st : Models Client) : Except String Unit × Models Client :=
  match st with
  | none => (Except.error "Models not initialized", none)
  | some m =>
    if containsKey m path then (Except.ok (), some m)
    else
      match eng.mkNew path with
      | Except.error e => (Except.error ("Failed to load model: " ++ e), some m)
      | Except.ok client => (Except.ok (), some (m ++ [(path, client)]))

/-- `unload_model(path)`: removes the entry, failing with
`"Model not loaded: {path}"` when absent. -/
def unload_model {Client : Type} (path : String) (st : Models Client) :
    Except String Unit × Models Client :=
  match st with
  | none => (Except.error "Models not initialized", none)
  | some m =>
    match removeKey m path with
    | none => (Except.error ("Model not loaded: " ++ path), some m)
    | some (_, m2) => (Except.ok (), some m2)

/-- `list_models()`: keys snapshot, empty when uninitialized. -/
def list_models {Client : Type} (st : Models Client) : List String :=
  match st with
  | none => []
  | some m => m.map Prod.fst

/-- The request built by `generate_text`: `GenerateRequest::new(prompt)`
followed by the two conditional builder calls. -/
def mkRequest {Temp : Type} (prompt : String) (max_tokens : Option Nat)
    (temperature : Option Temp) : GenerateRequest Temp :=
  let r := GenerateRequest.mkNew prompt
  let r :=
    match max_tokens with
    | some mx => r.set_max_tokens mx
    | none => r
  match temperature with
  | some t => r.set_temperature t
  | none => r

/-- The part of `generate_text` after the `load_model(path)?` call:
re-acquire the registry, look the handle up, run the engine's generate
and serialize the response. -/
def generate_after_load {Client Temp : Type} (eng : Engine Client Temp)
    (path prompt : String) (max_tokens : Option Nat) (temperature : Option Temp)
    (st : Models Client) : Except String String × Models Client :=
  match st with
  | none => (Except.error "Models not initialized", none)
  | some m =>
    match lookupKey m path with
    | none => (Except.error ("Model not loaded: " ++ path), some m)
    | some client =>
      match eng.generate client (mkRequest prompt max_tokens temperature) with
      | Except.error e => (Except.error ("Generation failed: " ++ e), some m)
      | Except.ok resp => (Except.ok (eng.renderResponse resp), some m)

/-- `generate_text(path, prompt, max_tokens, temperature)`: ensures the
model is loaded, then generates against its handle. -/
def generate_text {Client Temp : Type} (eng : Engine Client Temp)
    (path prompt : String) (max_tokens : Option Nat) (temperature : Option Temp)
    (st : Models Client) : Except String String × Models Client :=
  match load_model eng path st with
  | (Except.error e, st2) => (Except.error e, st2)
  | (Except.ok _, st2) => generate_after_load eng path prompt max_tokens temperature st2

/-- `get_model_info(path)`: ensures the model is loaded, then serializes
the handle's metadata. -/
def get_model_info {Client Temp : Type} (eng : Engine Client Temp) (path : String)
    (st : Models Client) : Except String String × Models Client :=
  match load_model eng path st with
  | (Except.error e, st2) => (Except.error e, st2)
  | (Except.ok _, st2) =>
    match st2 with
    | none => (Except.error "Models not initialized", none)
    | some m =>
      match lookupKey m path with
      | none => (Except.error ("Model not loaded: " ++ path), some m)
      | some client => (Except.ok (eng.renderInfo (eng.model_info client)), some m)

/-- Worker for `splitWhitespace`: `acc` holds the current token's
characters in reverse. -/
def splitWhitespaceAux : List Char → List Char → List String
  | [], acc => if acc.isEmpty then [] else [String.mk acc.reverse]
  | c :: cs, acc =>
    if c.isWhitespace then
      if acc.isEmpty then splitWhitespaceAux cs []
      else String.mk acc.reverse :: splitWhitespaceAux cs []
    else splitWhitespaceAux cs (c :: acc)

/-- Rust `str::split_whitespace`: split on whitespace runs, producing no
empty tokens. -/
def splitWhitespace (s : String) : List String :=
  splitWhitespaceAux s.data []

/-- `run_cli_command` after `args.split_whitespace().collect()`: dispatch
on the first token. -/
def run_cli_parts {Client Temp : Type} (eng : Engine Client Temp)
    (parts : List String) (st : Models Client) : Except String String × Models Client :=
  match parts with
  | [] => (Except.error "No command provided", st)
  | cmd :: rest =>
    if cmd = "load" then
      match rest with
      | [] => (Except.error "Usage: load <model-path>", st)
      | path :: _ =>
        match load_model eng path st with
        | (Except.error e, st2) => (Except.error e, st2)
        | (Except.ok _, st2) => (Except.ok ("Model loaded: " ++ path), st2)
    else if cmd = "unload" then
      match rest with
      | [] => (Except.error "Usage: unload <model-path>", st)
      | path :: _ =>
        match unload_model path st with
        | (Except.error e, st2) => (Except.error e, st2)
        | (Except.ok _, st2) => (Except.ok ("Model unloaded: " ++ path), st2)
    else if cmd = "list" then
      (Except.ok (eng.renderList (list_models st)), st)
    else if cmd = "generate" then
      match rest with
      | path :: tok :: toks =>
        generate_text eng path (String.intercalate " " (tok :: toks)) none none st
      | _ => (Except.error "Usage: generate <model-path> <prompt> [--max-tokens <n>]", st)
    else if cmd = "info" then
      match rest with
      | [] => (Except.error "Usage: info <model-path>", st)
      | path :: _ => get_model_info eng path st
    else (Except.error ("Unknown command: " ++ cmd), st)

/-- `run_cli_command(args)`. -/
def run_cli_command {Client Temp : Type} (eng : Engine Client Temp) (args : String)
    (st : Models Client) : Except String String × Models Client :=
  run_cli_parts eng (splitWhitespace args) st

/-- `cli_invoke(method, args)`: the CLI service front-end. -/
def cli_invoke {Client Temp : Type} (eng : Engine Client Temp) (method args : String)
    (st : Models Client) : Except ServiceError String × Models Client :=
  if method = "run_command" then
    match run_cli_command eng args st with
    | (Except.ok output, st2) => (Except.ok output, st2)
    | (Except.error e, st2) => (Except.error (ServiceError.invocation_error e), st2)
  else if method = "list_commands" then
    (Except.ok eng.commandsJson, st)
  else (Except.error (ServiceError.method_not_found method), st)

/-- `inference_invoke(method, args)`: the structured inference front-end. -/
def inference_invoke {Client Temp : Type} (eng : Engine Client Temp) (method args : String)
    (st : Models Client) : Except ServiceError String × Models Client :=
  if method = "generate" then
    match eng.parseGenerateArgs args with
    | Except.error e => (Except.error (ServiceError.invocation_error e), st)
    | Except.ok a =>
      match generate_text eng a.model_path a.prompt a.max_tokens a.temperature st with
      | (Except.ok output, st2) => (Except.ok output, st2)
      | (Except.error e, st2) => (Except.error (ServiceError.invocation_error e), st2)
  else (Except.error (ServiceError.method_not_found method), st)

/-! ## Concrete engines for witnesses and counterexamples -/

/-- A fixed response for the always-succeeding engine. -/
def okResponse : GenerateResponse :=
  { text := "ok", tokens_generated := 1, stopped := true, stop_reason := "eos" }

/-- Engine whose construction and generation always succeed
(handles are `Unit`, temperatures are `Unit`). -/
def okEngine : Engine Unit Unit :=
  { mkNew := fun _ => Except.ok ()
    generate := fun _ _ => Except.ok okResponse
    model_info := fun _ => { name := "m", size := 1, loaded := true }
    renderResponse := fun r => r.text
    renderList := fun l => String.intercalate "," l
    renderInfo := fun i => i.name
    parseGenerateArgs := fun _ => Except.error "expected value"
    commandsJson := "commands" }

/-- Engine whose handle construction always fails. -/
def badLoadEngine : Engine Unit Unit :=
  { okEngine with mkNew := fun _ => Except.error "bad file" }

/-- Engine whose generation always fails. -/
def badGenEngine : Engine Unit Unit :=
  { okEngine with generate := fun _ _ => Except.error "boom" }

/-! ## Registry lemmas -/

theorem containsKey_iff {Client : Type} (m : Registry Client) (k : String) :
    containsKey m k = true ↔ k ∈ m.map Prod.fst := by
  simp only [containsKey, List.any_eq_true, List.mem_map, beq_iff_eq]

theorem containsKey_append {Client : Type} (m1 m2 : Registry Client) (k : String) :
    containsKey (m1 ++ m2) k = (containsKey m1 k || containsKey m2 k) := by
  simp [containsKey]

theorem lookupKey_isSome_of_contains {Client : Type} (m : Registry Client) (k : String)
    (h : containsKey m k = true) : ∃ c, lookupKey m k = some c := by
  induction m with
  | nil => simp [containsKey] at h
  | cons p rest ih =>
    obtain ⟨k1, v1⟩ := p
    by_cases hk : k1 = k
    · exact ⟨v1, by simp [lookupKey, hk]⟩
    · have hb : (k1 == k) = false := beq_eq_false_iff_ne.mpr hk
      simp only [containsKey, List.any_cons, hb, Bool.false_or] at h
      obtain ⟨c, hc⟩ := ih h
      exact ⟨c, by simp [lookupKey, hb, hc]⟩

theorem contains_of_lookupKey_some {Client : Type} (m : Registry Client) (k : String)
    (c : Client) (h : lookupKey m k = some c) : containsKey m k = true := by
  induction m with
  | nil => simp [lookupKey] at h
  | cons p rest ih =>
    obtain ⟨k1, v1⟩ := p
    by_cases hk : (k1 == k) = true
    · simp [containsKey, hk]
    · have hb : (k1 == k) = false := by simpa using hk
      simp only [lookupKey, hb, Bool.false_eq_true, if_false] at h
      simp only [containsKey, List.any_cons, hb, Bool.false_or]
      exact ih h

theorem lookupKey_append {Client : Type} (m1 m2 : Registry Client) (k : String) :
    lookupKey (m1 ++ m2) k =
      match lookupKey m1 k with
      | some v => some v
      | none => lookupKey m2 k := by
  induction m1 with
  | nil => simp [lookupKey]
  | cons p rest ih =>
    obtain ⟨k1, v1⟩ := p
    by_cases hk : (k1 == k) = true
    · simp [lookupKey, hk]
    · have hb : (k1 == k) = false := by simpa using hk
      simp [lookupKey, hb, ih]

theorem lookupKey_eq_none_of_not_contains {Client : Type} (m : Registry Client) (k : String)
    (h : containsKey m k = false) : lookupKey m k = none := by
  cases hl : lookupKey m k with
  | none => rfl
  | some c => rw [contains_of_lookupKey_some m k c hl] at h; cases h

theorem removeKey_eq_none_of_not_contains {Client : Type} (m : Registry Client) (k : String)
    (h : containsKey m k = false) : removeKey m k = none := by
  induction m with
  | nil => rfl
  | cons p rest ih =>
    obtain ⟨k1, v1⟩ := p
    simp only [containsKey, List.any_cons, Bool.or_eq_false_iff] at h
    obtain ⟨h1, h2⟩ := h
    simp [removeKey, h1, ih h2]

theorem removeKey_lookup_other {Client : Type} (m : Registry Client) (k k2 : String)
    (hne : k2 ≠ k) :
    ∀ v m2, removeKey m k = some (v, m2) → lookupKey m2 k2 = lookupKey m k2 := by
  induction m with
  | nil => intro v m2 h; simp [removeKey] at h
  | cons p rest ih =>
    obtain ⟨k1, v1⟩ := p
    intro v m2 h
    by_cases hk : (k1 == k) = true
    · simp only [removeKey, hk, if_true] at h
      injection h with h2
      injection h2 with ha hb2
      subst hb2
      have hk1 : k1 = k := by simpa using hk
      have hne2 : (k1 == k2) = false := beq_eq_false_iff_ne.mpr (hk1 ▸ fun he => hne he.symm)
      simp [lookupKey, hne2]
    · have hb : (k1 == k) = false := by simpa using hk
      simp only [removeKey, hb, Bool.false_eq_true, if_false] at h
      cases hr : removeKey rest k with
      | none => rw [hr] at h; cases h
      | some pr =>
        obtain ⟨v2, mr⟩ := pr
        rw [hr] at h
        injection h with h2
        injection h2 with ha hb2
        subst hb2
        simp [lookupKey, ih v2 mr hr]

/-! ## Structural lemmas about the operations -/

theorem load_model_noop_of_contains {Client Temp : Type} (eng : Engine Client Temp)
    (path : String) (m : Registry Client) (h : containsKey m path = true) :
    load_model eng path (some m) = (Except.ok (), some m) := by
  simp [load_model, h]

theorem load_model_ok_cases {Client Temp : Type} (eng : Engine Client Temp)
    (path : String) (m : Registry Client) (u : Unit) (st2 : Models Client)
    (h : load_model eng path (some m) = (Except.ok u, st2)) :
    (containsKey m path = true ∧ st2 = some m) ∨
      (containsKey m path = false ∧
        ∃ c, eng.mkNew path = Except.ok c ∧ st2 = some (m ++ [(path, c)])) := by
  by_cases hc : containsKey m path = true
  · left
    refine ⟨hc, ?_⟩
    rw [load_model_noop_of_contains eng path m hc] at h
    exact (Prod.mk.injEq _ _ _ _ ▸ h).2.symm ▸ rfl
  · right
    have hc2 : containsKey m path = false := by simpa using hc
    refine ⟨hc2, ?_⟩
    simp only [load_model, hc2, Bool.false_eq_true, if_false] at h
    cases hn : eng.mkNew path with
    | error e => rw [hn] at h; cases h
    | ok c =>
      rw [hn] at h
      injection h with h1 h2
      exact ⟨c, rfl, h2.symm⟩

theorem load_model_ok_contains {Client Temp : Type} (eng : Engine Client Temp)
    (path : String) (m : Registry Client) (u : Unit) (st2 : Models Client)
    (h : load_model eng path (some m) = (Except.ok u, st2)) :
    ∃ m2, st2 = some m2 ∧ containsKey m2 path = true := by
  rcases load_model_ok_cases eng path m u st2 h with ⟨hc, rfl⟩ | ⟨hc, c, hn, rfl⟩
  · exact ⟨m, rfl, hc⟩
  · refine ⟨m ++ [(path, c)], rfl, ?_⟩
    simp [containsKey_append, containsKey]

theorem load_model_lookup_other {Client Temp : Type} (eng : Engine Client Temp)
    (path other : String) (hne : other ≠ path) (m : Registry Client) :
    ∃ m2, (load_model eng path (some m)).2 = some m2 ∧
      lookupKey m2 other = lookupKey m other := by
  by_cases hc : containsKey m path = true
  · exact ⟨m, by simp [load_model, hc], rfl⟩
  · have hc2 : containsKey m path = false := by simpa using hc
    cases hn : eng.mkNew path with
    | error e => exact ⟨m, by simp [load_model, hc2, hn], rfl⟩
    | ok c =>
      refine ⟨m ++ [(path, c)], by simp [load_model, hc2, hn], ?_⟩
      rw [lookupKey_append]
      cases hl : lookupKey m other with
      | some v => rfl
      | none =>
        have hb : (path == other) = false := beq_eq_false_iff_ne.mpr fun he => hne he.symm
        simp [lookupKey, hb]

theorem generate_text_state_eq_load_state {Client Temp : Type} (eng : Engine Client Temp)
    (path prompt : String) (mt : Option Nat) (t : Option Temp) (st : Models Client) :
    (generate_text eng path prompt mt t st).2 = (load_model eng path st).2 := by
  cases hl : load_model eng path st with
  | mk r st2 =>
    cases r with
    | error e => simp [generate_text, hl]
    | ok u =>
      simp only [generate_text, hl]
      cases st2 with
      | none => simp [generate_after_load]
      | some m =>
        simp only [generate_after_load]
        cases hk : lookupKey m path with
        | none => simp [hk]
        | some client =>
          simp only [hk]
          cases hg : eng.generate client (mkRequest prompt mt t) with
          | error e => simp [hg]
          | ok resp => simp [hg]

theorem countKey_eq_zero_of_not_contains {Client : Type} (m : Registry Client) (k : String)
    (h : containsKey m k = false) : countKey m k = 0 := by
  induction m with
  | nil => rfl
  | cons p rest ih =>
    obtain ⟨k1, v1⟩ := p
    simp only [containsKey, List.any_cons, Bool.or_eq_false_iff] at h
    obtain ⟨h1, h2⟩ := h
    simp only [countKey, List.filter_cons, h1]
    exact ih h2

theorem countKey_eq_one_of_nodup_contains {Client : Type} (m : Registry Client) (k : String)
    (hnd : NodupKeys m) (h : containsKey m k = true) : countKey m k = 1 := by
  induction m with
  | nil => simp [containsKey] at h
  | cons p rest ih =>
    obtain ⟨k1, v1⟩ := p
    have hnd2 : NodupKeys rest := (List.nodup_cons.mp hnd).2
    by_cases hk : (k1 == k) = true
    · have hk1 : k1 = k := by simpa using hk
      have hnotin : k1 ∉ rest.map Prod.fst := (List.nodup_cons.mp hnd).1
      have hcf : containsKey rest k = false := by
        by_contra hcc
        have : containsKey rest k = true := by simpa using hcc
        exact hnotin (hk1 ▸ (containsKey_iff rest k).mp this)
      simp only [countKey, List.filter_cons, hk]
      have := countKey_eq_zero_of_not_contains rest k hcf
      simp only [countKey] at this
      simp [this]
    · have hb : (k1 == k) = false := by simpa using hk
      simp only [containsKey, List.any_cons, hb, Bool.false_or] at h
      simp only [countKey, List.filter_cons, hb]
      exact ih hnd2 h

theorem countKey_append_single {Client : Type} (m : Registry Client) (P : String) (c : Client) :
    countKey (m ++ [(P, c)]) P = countKey m P + 1 := by
  simp [countKey, List.filter_append]

/-! ## Claim theorems -/

/-- C2: `load(P)` on an already-present path succeeds and leaves the
registry (including the handle for P) unchanged; hence when a first
`load(P)` succeeds, a second `load(P)` succeeds, changes nothing, and the
registry holds exactly one entry for P. -/
theorem load_idempotent {Client Temp : Type} (eng : Engine Client Temp) (P : String)
    (m : Registry Client) (hnd : NodupKeys m) :
    (containsKey m P = true → load_model eng P (some m) = (Except.ok (), some m)) ∧
    (∀ st1, load_model eng P (some m) = (Except.ok (), st1) →
      load_model eng P st1 = (Except.ok (), st1) ∧
      ∃ m1, st1 = some m1 ∧ countKey m1 P = 1) := by
  constructor
  · exact load_model_noop_of_contains eng P m
  · intro st1 h
    obtain ⟨m1, rfl, hc⟩ := load_model_ok_contains eng P m () st1 h
    refine ⟨load_model_noop_of_contains eng P m1 hc, m1, rfl, ?_⟩
    rcases load_model_ok_cases eng P m () (some m1) h with ⟨hcm, hm⟩ | ⟨hcm, c, hn, hm⟩
    · injection hm with hm2
      subst hm2
      exact countKey_eq_one_of_nodup_contains m1 P hnd hcm
    · injection hm with hm2
      subst hm2
      rw [countKey_append_single, countKey_eq_zero_of_not_contains m P hcm]

theorem load_idempotent_witness :
    NodupKeys ([("a", Unit.unit)] : Registry Unit) ∧
    load_model okEngine "a" (some [("a", Unit.unit)]) =
      (Except.ok (), some [("a", Unit.unit)]) :=
  ⟨by simp [NodupKeys],
    (load_idempotent okEngine "a" [("a", Unit.unit)] (by simp [NodupKeys])).1 (by decide)⟩

/-- C3: `unload(P)` on a path with no registry entry fails with the
"Model not loaded" error and leaves the registry mapping untouched. -/
theorem unload_not_loaded {Client : Type} (P : String) (m : Registry Client)
    (h : containsKey m P = false) :
    unload_model P (some m) = (Except.error ("Model not loaded: " ++ P), some m) := by
  simp [unload_model, removeKey_eq_none_of_not_contains m P h]

theorem unload_not_loaded_witness :
    containsKey ([] : Registry Unit) "missing.bin" = false ∧
    unload_model "missing.bin" (some ([] : Registry Unit)) =
      (Except.error "Model not loaded: missing.bin", some []) :=
  ⟨by decide, unload_not_loaded "missing.bin" ([] : Registry Unit) (by decide)⟩

/-- C4: when handle construction fails for an absent path, `load(P)`
returns the engine's reason wrapped in "Failed to load model: " and the
registry mapping is exactly as before (no partial entry). -/
theorem load_engine_failure {Client Temp : Type} (eng : Engine Client Temp) (P : String)
    (m : Registry Client) (r : String) (hc : containsKey m P = false)
    (hn : eng.mkNew P = Except.error r) :
    load_model eng P (some m) = (Except.error ("Failed to load model: " ++ r), some m) := by
  simp [load_model, hc, hn]

theorem load_engine_failure_witness :
    containsKey ([] : Registry Unit) "missing.bin" = false ∧
    badLoadEngine.mkNew "missing.bin" = Except.error "bad file" ∧
    load_model badLoadEngine "missing.bin" (some []) =
      (Except.error "Failed to load model: bad file", some []) :=
  ⟨by decide, rfl,
    load_engine_failure badLoadEngine "missing.bin" [] "bad file" (by decide) rfl⟩

/-- C5: from an empty registry, after `load(A)` and `load(B)` succeed for
distinct paths and `unload(A)` succeeds, `list()` returns exactly [B]. -/
theorem list_after_load_unload {Client Temp : Type} (eng : Engine Client Temp)
    (A B : String) (hAB : A ≠ B) (cA cB : Client)
    (hA : eng.mkNew A = Except.ok cA) (hB : eng.mkNew B = Except.ok cB) :
    load_model eng A (some []) = (Except.ok (), some [(A, cA)]) ∧
    load_model eng B (some [(A, cA)]) = (Except.ok (), some [(A, cA), (B, cB)]) ∧
    unload_model A (some [(A, cA), (B, cB)]) = (Except.ok (), some [(B, cB)]) ∧
    list_models (some ([(B, cB)] : Registry Client)) = [B] := by
  have hABb : (A == B) = false := beq_eq_false_iff_ne.mpr hAB
  refine ⟨?_, ?_, ?_, ?_⟩
  · simp [load_model, containsKey, hA]
  · simp [load_model, containsKey, hABb, hB]
  · simp [unload_model, removeKey]
  · simp [list_models]

theorem list_after_load_unload_witness :
    load_model okEngine "a" (some []) = (Except.ok (), some [("a", Unit.unit)]) ∧
    load_model okEngine "b" (some [("a", Unit.unit)]) =
      (Except.ok (), some [("a", Unit.unit), ("b", Unit.unit)]) ∧
    unload_model "a" (some [("a", Unit.unit), ("b", Unit.unit)]) =
      (Except.ok (), some [("b", Unit.unit)]) ∧
    list_models (some ([("b", Unit.unit)] : Registry Unit)) = ["b"] :=
  list_after_load_unload okEngine "a" "b" (by decide) Unit.unit Unit.unit rfl rfl

theorem ne_of_string_head (a b : String) (e f : String) (ca cb : Char)
    (ha : a.data.head? = some ca) (hb : b.data.head? = some cb) (hcc : ca ≠ cb) :
    a ++ e ≠ b ++ f := by
  intro h
  apply hcc
  have h2 := congrArg (fun s => s.data.head?) h
  simp only [String.data_append] at h2
  cases hda : a.data with
  | nil => rw [hda] at ha; cases ha
  | cons x xs =>
    cases hdb : b.data with
    | nil => rw [hdb] at hb; cases hb
    | cons y ys =>
      rw [hda] at ha
      rw [hdb] at hb
      rw [hda, hdb] at h2
      simp only [List.cons_append, List.head?_cons] at h2
      injection ha with ha2
      injection hb with hb2
      injection h2 with h3
      rw [← ha2, ← hb2, h3]

/-- C1: for a path absent from the registry, `generate(P, S, ...)` behaves
exactly as `load(P)` followed by `generate(P, S, ...)`: when the load step
succeeds the two runs coincide and the result is never the "not loaded"
error; when the load step fails, `generate` returns precisely that load
error and state. -/
theorem generate_autoload_equivalence {Client Temp : Type} (eng : Engine Client Temp)
    (P S : String) (mt : Option Nat) (t : Option Temp) (m : Registry Client)
    (hnot : containsKey m P = false) :
    (∀ st2, load_model eng P (some m) = (Except.ok (), st2) →
      generate_text eng P S mt t (some m) = generate_text eng P S mt t st2 ∧
      (generate_text eng P S mt t (some m)).1 ≠
        Except.error ("Model not loaded: " ++ P)) ∧
    (∀ e st2, load_model eng P (some m) = (Except.error e, st2) →
      generate_text eng P S mt t (some m) = (Except.error e, st2)) := by
  constructor
  · intro st2 hL
    obtain ⟨m2, rfl, hc2⟩ := load_model_ok_contains eng P m () st2 hL
    have hL2 : load_model eng P (some m2) = (Except.ok (), some m2) :=
      load_model_noop_of_contains eng P m2 hc2
    constructor
    · simp only [generate_text, hL, hL2]
    · simp only [generate_text, hL, generate_after_load]
      obtain ⟨c, hcl⟩ := lookupKey_isSome_of_contains m2 P hc2
      simp only [hcl]
      cases hg : eng.generate c (mkRequest S mt t) with
      | error e =>
        simp only [hg]
        intro hcontra
        injection hcontra with hstr
        exact ne_of_string_head "Generation failed: " "Model not loaded: " e P 'G' 'M'
          rfl rfl (by decide) hstr
      | ok resp =>
        simp only [hg]
        intro hcontra
        exact Except.noConfusion hcontra
  · intro e st2 hL
    simp only [generate_text, hL]

theorem generate_autoload_equivalence_witness :
    generate_text okEngine "m.bin" "hi" none none (some []) =
      generate_text okEngine "m.bin" "hi" none none (some [("m.bin", Unit.unit)]) ∧
    (generate_text okEngine "m.bin" "hi" none none (some ([] : Registry Unit))).1 ≠
      Except.error "Model not loaded: m.bin" :=
  (generate_autoload_equivalence okEngine "m.bin" "hi" none none [] (by decide)).1
    (some [("m.bin", Unit.unit)]) rfl

/-- C8: when the handle's generate call fails for a loaded path, the call
returns the failure reason wrapped in "Generation failed: " and the
registry — including the entry for the path — is unchanged. -/
theorem generate_failure_keeps_entry {Client Temp : Type} (eng : Engine Client Temp)
    (P S : String) (mt : Option Nat) (t : Option Temp) (m : Registry Client) (c : Client)
    (hlook : lookupKey m P = some c) (r : String)
    (hfail : eng.generate c (mkRequest S mt t) = Except.error r) :
    generate_text eng P S mt t (some m) =
      (Except.error ("Generation failed: " ++ r), some m) := by
  have hc : containsKey m P = true := contains_of_lookupKey_some m P c hlook
  have hL : load_model eng P (some m) = (Except.ok (), some m) :=
    load_model_noop_of_contains eng P m hc
  simp only [generate_text, hL, generate_after_load, hlook, hfail]

theorem generate_failure_keeps_entry_witness :
    generate_text badGenEngine "m.bin" "hi" none none (some [("m.bin", Unit.unit)]) =
      (Except.error "Generation failed: boom", some [("m.bin", Unit.unit)]) :=
  generate_failure_keeps_entry badGenEngine "m.bin" "hi" none none
    [("m.bin", Unit.unit)] Unit.unit rfl "boom" rfl

/-- C9: registry keys are compared by exact string equality: loads of two
textually distinct paths create two independent entries, and `load`,
`unload` and `generate` on one path never change the entry stored under
the other. -/
theorem path_keys_independent {Client Temp : Type} (eng : Engine Client Temp)
    (P1 P2 : String) (hne : P1 ≠ P2) (S : String) (mt : Option Nat) (t : Option Temp)
    (m : Registry Client) :
    (∃ m2, (load_model eng P1 (some m)).2 = some m2 ∧
      lookupKey m2 P2 = lookupKey m P2) ∧
    (∃ m2, (unload_model P1 (some m)).2 = some m2 ∧
      lookupKey m2 P2 = lookupKey m P2) ∧
    (∃ m2, (generate_text eng P1 S mt t (some m)).2 = some m2 ∧
      lookupKey m2 P2 = lookupKey m P2) ∧
    (∀ c1 c2, eng.mkNew P1 = Except.ok c1 → eng.mkNew P2 = Except.ok c2 →
      containsKey m P1 = false → containsKey m P2 = false →
      load_model eng P2 ((load_model eng P1 (some m)).2) =
        (Except.ok (), some ((m ++ [(P1, c1)]) ++ [(P2, c2)])) ∧
      lookupKey ((m ++ [(P1, c1)]) ++ [(P2, c2)]) P1 = some c1 ∧
      lookupKey ((m ++ [(P1, c1)]) ++ [(P2, c2)]) P2 = some c2) := by
  have hne2 : P2 ≠ P1 := fun he => hne he.symm
  have hload := load_model_lookup_other eng P1 P2 hne2 m
  refine ⟨hload, ?_, ?_, ?_⟩
  · cases hr : removeKey m P1 with
    | none => exact ⟨m, by simp [unload_model, hr], rfl⟩
    | some pr =>
      obtain ⟨v, m2⟩ := pr
      exact ⟨m2, by simp [unload_model, hr],
        removeKey_lookup_other m P1 P2 hne2 v m2 hr⟩
  · rw [generate_text_state_eq_load_state]
    exact hload
  · intro c1 c2 hn1 hn2 hc1 hc2
    have hst1 : (load_model eng P1 (some m)).2 = some (m ++ [(P1, c1)]) := by
      simp [load_model, hc1, hn1]
    have hc2app : containsKey (m ++ [(P1, c1)]) P2 = false := by
      rw [containsKey_append, hc2]
      simp [containsKey, beq_eq_false_iff_ne.mpr hne]
    have hl1 : lookupKey m P1 = none := lookupKey_eq_none_of_not_contains m P1 hc1
    have hl2 : lookupKey m P2 = none := lookupKey_eq_none_of_not_contains m P2 hc2
    refine ⟨?_, ?_, ?_⟩
    · rw [hst1]
      simp [load_model, hc2app, hn2]
    · rw [lookupKey_append, lookupKey_append, hl1]
      simp [lookupKey]
    · rw [lookupKey_append, lookupKey_append, hl2]
      simp [lookupKey, beq_eq_false_iff_ne.mpr hne]

theorem path_keys_independent_witness :
    load_model okEngine "b" ((load_model okEngine "a" (some ([] : Registry Unit))).2) =
      (Except.ok (),
        some ((([] : Registry Unit) ++ [("a", Unit.unit)]) ++ [("b", Unit.unit)])) ∧
    lookupKey ((([] : Registry Unit) ++ [("a", Unit.unit)]) ++ [("b", Unit.unit)]) "a" =
      some Unit.unit ∧
    lookupKey ((([] : Registry Unit) ++ [("a", Unit.unit)]) ++ [("b", Unit.unit)]) "b" =
      some Unit.unit :=
  (path_keys_independent okEngine "a" "b" (by decide) "hi" none none []).2.2.2
    Unit.unit Unit.unit rfl rfl (by decide) (by decide)

/-- C10: a CLI `generate` invocation always passes `None` for max_tokens
and temperature, and joins every token after the model path — flag-like
tokens included — with single spaces into the prompt. -/
theorem cli_generate_defaults {Client Temp : Type} (eng : Engine Client Temp)
    (st : Models Client) (path : String) (toks : List String) (h : toks ≠ []) :
    run_cli_parts eng ("generate" :: path :: toks) st =
      generate_text eng path (String.intercalate " " toks) none none st := by
  cases toks with
  | nil => exact absurd rfl h
  | cons tok rest => rfl

theorem cli_generate_defaults_witness :
    run_cli_parts okEngine ["generate", "m.bin", "--max-tokens", "5", "hi"]
      (some ([] : Registry Unit)) =
      generate_text okEngine "m.bin" "--max-tokens 5 hi" none none (some []) :=
  cli_generate_defaults okEngine (some ([] : Registry Unit)) "m.bin"
    ["--max-tokens", "5", "hi"] (by decide)

/-- C6 counterexample: in the code, the CLI front-end has no `help`
subcommand and rejects an empty token list: `help` yields
"Unknown command: help" and the empty string yields "No command
provided" — both errors, not a successful usage summary. -/
theorem help_and_empty_are_errors :
    (run_cli_command okEngine "help" (some ([] : Registry Unit))).1 =
      Except.error "Unknown command: help" ∧
    (run_cli_command okEngine "" (some ([] : Registry Unit))).1 =
      Except.error "No command provided" := by
  constructor <;> rfl

/-- C6 amended: the CLI front-end's `help` token and the empty token list
both return errors ("Unknown command: help" and "No command provided"
respectively), leaving the registry untouched; no usage-summary
subcommand exists. -/
theorem help_and_empty_amended {Client Temp : Type} (eng : Engine Client Temp)
    (st : Models Client) :
    run_cli_command eng "help" st = (Except.error "Unknown command: help", st) ∧
    run_cli_command eng "" st = (Except.error "No command provided", st) := by
  constructor
  · show run_cli_parts eng (splitWhitespace "help") st = _
    have hs : splitWhitespace "help" = ["help"] := rfl
    rw [hs]
    rfl
  · show run_cli_parts eng (splitWhitespace "") st = _
    have hs : splitWhitespace "" = ([] : List String) := rfl
    rw [hs]
    rfl

/-- C7: every unsupported method name is answered with an explicit
method-not-found error by both front-ends, and every unsupported first
CLI token is answered with an explicit "Unknown command" error; the state
is untouched and no default operation runs. -/
theorem unknown_method_errors {Client Temp : Type} (eng : Engine Client Temp)
    (st : Models Client) (methodC methodI args : String) (cmd : String)
    (rest : List String)
    (h1 : methodC ≠ "run_command") (h2 : methodC ≠ "list_commands")
    (h3 : methodI ≠ "generate")
    (h4 : cmd ≠ "load") (h5 : cmd ≠ "unload") (h6 : cmd ≠ "list")
    (h7 : cmd ≠ "generate") (h8 : cmd ≠ "info") :
    cli_invoke eng methodC args st =
      (Except.error (ServiceError.method_not_found methodC), st) ∧
    inference_invoke eng methodI args st =
      (Except.error (ServiceError.method_not_found methodI), st) ∧
    run_cli_parts eng (cmd :: rest) st =
      (Except.error ("Unknown command: " ++ cmd), st) := by
  refine ⟨?_, ?_, ?_⟩
  · simp [cli_invoke, h1, h2]
  · simp [inference_invoke, h3]
  · simp [run_cli_parts, h4, h5, h6, h7, h8]

theorem unknown_method_errors_witness :
    cli_invoke okEngine "frobnicate" "" (some ([] : Registry Unit)) =
      (Except.error (ServiceError.method_not_found "frobnicate"), some []) ∧
    inference_invoke okEngine "frobnicate" "" (some ([] : Registry Unit)) =
      (Except.error (ServiceError.method_not_found "frobnicate"), some []) ∧
    run_cli_parts okEngine ["status"] (some ([] : Registry Unit)) =
      (Except.error "Unknown command: status", some []) :=
  unknown_method_errors okEngine (some []) "frobnicate" "frobnicate" "" "status" []
    (by decide) (by decide) (by decide) (by decide) (by decide) (by decide)
    (by decide) (by decide)
